import Mathlib

/-!
Verification of the device-communication core of the blood-pressure-monitor
repository (src/bpm_usb.py and src/bpm_bt.py), as a shallow embedding.

Bytes are modelled as `Nat` values below 256, byte strings as `List Nat`.
The USB transport (`Microlife_USB`) is modelled with the device's read
results given by an oracle `reads : Nat → List Nat` (the value returned by
the n-th call to `USB_IO.read`), while writes are logged.  The wireless
transport's notification reassembly (`characteristic_notification`) is
modelled as a pure state transformer.  The concurrent discovery coordinator
(`Discovery.isbpm`) is modelled as an interleaving of the atomic blocks
between `await` suspension points, driven by an arbitrary scheduler.
-/

namespace BPMonitor

/-! ## Hex codecs (src/bpm_usb.py)

`bytearray(...).hex()` produces two lowercase hex digits per byte; the
response checksum is printed with `'%2.2X'`, i.e. two uppercase hex digits.
`decode_hexdigit` / `decode_hexnum` are the source's decoders; a non-hex
byte raises (`Except.error`). -/

def hexLower (d : Nat) : Nat := if d < 10 then 48 + d else 87 + d

def hexUpper (d : Nat) : Nat := if d < 10 then 48 + d else 55 + d

/-- Character codes of `bytearray(bs).hex()`: two lowercase digits per byte. -/
def hexEncodeCodes : List Nat → List Nat
  | [] => []
  | b :: bs => hexLower (b / 16) :: hexLower (b % 16) :: hexEncodeCodes bs

/-- `Microlife_USB.decode_hexdigit`: value of one hex-digit character code. -/
def decodeHexdigit (b : Nat) : Except Unit Nat :=
  if 48 ≤ b ∧ b ≤ 57 then .ok (b - 48)
  else if 65 ≤ b ∧ b ≤ 70 then .ok (b - 65 + 10)
  else if 97 ≤ b ∧ b ≤ 102 then .ok (b - 97 + 10)
  else .error ()

def decodeHexnumAux : Nat → List Nat → Except Unit Nat
  | w, [] => .ok w
  | w, b :: bs =>
    match decodeHexdigit b with
    | .error e => .error e
    | .ok d => decodeHexnumAux (w * 16 + d) bs

/-- `Microlife_USB.decode_hexnum`: big-endian value of a hex-digit string. -/
def decodeHexnum (bs : List Nat) : Except Unit Nat := decodeHexnumAux 0 bs

/-! ## USB framing and chunking (src/bpm_usb.py) -/

/-- `Microlife_USB.MAX_RETRY`. -/
def MAX_RETRY : Nat := 15

/-- The chunking loop of `send_command`: `arg[:7]` slices written in order. -/
def chunk7 (l : List Nat) : List (List Nat) :=
  if h : l = [] then [] else l.take 7 :: chunk7 (l.drop 7)
termination_by l.length
decreasing_by
  simp [List.length_drop]
  exact List.length_pos.mpr h

/-- Host platform distinction taken in `USB_IO.write` (`sys.platform`). -/
inductive HostOS
  | win32
  | other
deriving DecidableEq

/-- The raw report buffer built by `USB_IO.write`: on win32 a leading zero
report id plus a length byte, elsewhere just the length byte. -/
def usbFrame : HostOS → List Nat → List Nat
  | .win32, data => 0 :: data.length :: data
  | .other, data => data.length :: data

/-- The assertion `USB_IO.write` makes on the byte count returned by
`self.device.write(raw)`: `== 9` on win32, `== len(raw)` otherwise. -/
def usbWriteRetAssert : HostOS → List Nat → Nat → Bool
  | .win32, _, ret => ret == 9
  | .other, data, ret => ret == data.length + 1

/-- The entry assertion `assert len(data) <= 7` of `USB_IO.write`. -/
def usbLenAssert (data : List Nat) : Bool := data.length ≤ 7

/-! ## USB command engine (`Microlife_USB.send_command`) -/

/-- The four command bytes `[0x12, 0x16, 0x18, cmd]`. -/
def usbCmdBytes (cmd : Nat) : List Nat := [18, 22, 24, cmd]

/-- `response[1:-2]`: the payload with status byte and 2 checksum characters
stripped. -/
def usbPayload (resp : List Nat) : List Nat := (resp.drop 1).take (resp.length - 3)

/-- `sum(response[1:len(response)-2]) % 256`, the checksum the code computes
over a get-type response. -/
def usbChecksum (resp : List Nat) : Nat := ((resp.drop 1).take (resp.length - 3)).sum % 256

/-- Python `bytes.decode()` (UTF-8) restricted to the two trailing checksum
bytes `response[-2:]`: two ASCII bytes decode to themselves, a two-byte
UTF-8 sequence decodes to one character, anything else raises
`UnicodeDecodeError`. -/
def pyDecode2 : List Nat → Option (List Nat)
  | [a, b] =>
    if a < 128 ∧ b < 128 then some [a, b]
    else if 194 ≤ a ∧ a ≤ 223 ∧ 128 ≤ b ∧ b ≤ 191 then some [(a - 192) * 64 + (b - 128)]
    else none
  | _ => none

/-- What one loop iteration of `send_command` (get-type, `arg is None`) does
with the response it has just read. -/
inductive USBStep
  | accept (p : List Nat)
  | retry
  | typeError
  | decodeError
deriving DecidableEq

/-- The response handling of one `send_command` iteration for a get-type
command (src/bpm_usb.py lines 142-152).  A short or non-ACK response is
discarded (`continue`).  Otherwise the checksum is compared with
`response[-2:].decode()`: on success `response[1:-2]` is returned; if
`.decode()` raises, the `UnicodeDecodeError` propagates; on a mismatch the
code calls `self.prnt(msg, file=sys.stderr)` — but `prnt` is always a
one-argument callable (the default `lambda s: print(s)` or the GUI's
`show_message`), so this call raises `TypeError` and aborts the loop. -/
def usbCheckResponse (resp : List Nat) : USBStep :=
  if resp.length ≤ 3 ∨ resp.getD 0 0 ≠ 6 then .retry
  else
    match pyDecode2 (resp.drop (resp.length - 2)) with
    | none => .decodeError
    | some s =>
      if s = [hexUpper (usbChecksum resp / 16), hexUpper (usbChecksum resp % 16)] then
        .accept (usbPayload resp)
      else .typeError

inductive USBOutcome
  | payload (p : List Nat)
  | exhausted
  | typeError
  | decodeError
deriving DecidableEq

/-- Trace of one `send_command` call: every chunk handed to `USB_IO.write`,
the number of loop iterations executed, and the outcome.  `exhausted` is the
implicit `return None` after the `while retries < self.MAX_RETRY` loop ends
without a valid response. -/
structure USBRun where
  writes : List (List Nat)
  attempts : Nat
  outcome : USBOutcome
deriving DecidableEq

/-- The hex-ASCII frame written after the ACK of a set-type command: the
argument's `bytearray(arg).hex()` character codes followed by the two
character codes of `bytearray([sum(arg) % 256]).hex()` where `arg` is
already the list of hex character codes (the source reassigns `arg` before
summing). -/
def usbSetFrame (a : List Nat) : List Nat :=
  hexEncodeCodes a ++
    [hexLower ((hexEncodeCodes a).sum % 256 / 16), hexLower ((hexEncodeCodes a).sum % 256 % 16)]

/-- The retry loop of `Microlife_USB.send_command`.  `fuel` counts the
remaining iterations of `while retries < self.MAX_RETRY`; `idx` is the
number of `self.read()` calls made so far; `ws` the write log; `att` the
number of iterations begun. -/
def sendLoop (cmdBytes : List Nat) (arg : Option (List Nat)) (reads : Nat → List Nat) :
    Nat → Nat → List (List Nat) → Nat → USBRun
  | 0, _, ws, att => ⟨ws, att, .exhausted⟩
  | fuel + 1, idx, ws, att =>
    match arg with
    | some a =>
      if (reads idx).length = 1 ∧ (reads idx).getD 0 0 = 6 then
        ⟨(ws ++ [cmdBytes]) ++ chunk7 (usbSetFrame a), att + 1, .payload (reads (idx + 1))⟩
      else sendLoop cmdBytes arg reads fuel (idx + 1) (ws ++ [cmdBytes]) (att + 1)
    | none =>
      match usbCheckResponse (reads idx) with
      | .accept p => ⟨ws ++ [cmdBytes], att + 1, .payload p⟩
      | .retry => sendLoop cmdBytes arg reads fuel (idx + 1) (ws ++ [cmdBytes]) (att + 1)
      | .typeError => ⟨ws ++ [cmdBytes], att + 1, .typeError⟩
      | .decodeError => ⟨ws ++ [cmdBytes], att + 1, .decodeError⟩

/-- `Microlife_USB.send_command`: `arg = none` is a get-type command whose
validated payload is returned, `arg = some a` a set-type command (SET_ID,
SET_DATETIME) whose argument is hex-encoded and written after the ACK. -/
def sendCommand (cmd : Nat) (arg : Option (List Nat)) (reads : Nat → List Nat) : USBRun :=
  sendLoop (usbCmdBytes cmd) arg reads MAX_RETRY 0 [] 0

/-! ## Wireless transport (src/bpm_bt.py, class `Microlife_BTLE`) -/

/-- Failure of one of the `assert` statements (or an out-of-range index) in
`characteristic_notification`. -/
inductive NotifErr
  | badTag
  | shortIndex
  | badLen
  | badCksum
deriving DecidableEq

/-- `Microlife_BTLE.characteristic_notification`: extends the reassembly
buffer `received` with the notification `value`; asserts the `M:` magic tag;
reads the declared total length `bytes[2]*256 + bytes[3] + 4` (an index
error if fewer than 4 bytes have arrived); when at least that many bytes
have accumulated it asserts the count is exactly the declared length,
checks the trailing checksum, and delivers `bytes[4:-1]` as the result,
resetting the buffer; otherwise it just keeps the buffer. -/
def charNotif (received value : List Nat) :
    Except NotifErr (List Nat × Option (List Nat)) :=
  let rv := received ++ value
  if rv.take 2 ≠ [77, 58] then .error .badTag
  else if rv.length < 4 then .error .shortIndex
  else
    if rv.getD 2 0 * 256 + rv.getD 3 0 + 4 ≤ rv.length then
      if rv.length ≠ rv.getD 2 0 * 256 + rv.getD 3 0 + 4 then .error .badLen
      else if rv.dropLast.sum % 256 ≠ rv.getD (rv.length - 1) 0 then .error .badCksum
      else .ok ([], some ((rv.drop 4).dropLast))
    else .ok (rv, none)

/-- The response both `set_id` and `set_date_and_time` assert against:
`bytearray([129])`. -/
def btleAckSentinel : List Nat := [129]

/-- Overlay `xs` onto `l` starting at position `off` (the `for i in range`
assignment loops of the two `set_id` implementations). -/
def overlay (l : List Nat) (off : Nat) (xs : List Nat) : List Nat :=
  l.take off ++ xs ++ l.drop (off + xs.length)

/-- The 27 fixed bytes of the wireless SET_ID command before the patient id
is written into positions 6.. and the checksum is appended. -/
def btleSetIdBase : List Nat :=
  [77, 255, 0, 24, 6, 253, 0, 0, 0, 0, 0, 0, 0, 0, 0, 0, 0,
   0, 0, 0, 0, 0, 0, 0, 0, 0, 216]

/-- `Microlife_BTLE.MAX_ID_LENGTH`. -/
def MAX_ID_LENGTH : Nat := 20

/-- The command bytes `Microlife_BTLE.set_id` sends: the id (truncated to 20
characters) written into the fixed command, then the mod-256 checksum
appended. -/
def btleSetIdCmd (id : List Nat) : List Nat :=
  let id' := if id.length > MAX_ID_LENGTH then id.take MAX_ID_LENGTH else id
  let cmd := overlay btleSetIdBase 6 id'
  cmd ++ [cmd.sum % 256]

/-- Python `str.strip` whitespace predicate on ASCII codes. -/
def pySpace (c : Nat) : Bool := c = 32 ∨ c = 9 ∨ c = 10 ∨ c = 13 ∨ c = 11 ∨ c = 12

/-- Python `str.strip()`: drop whitespace from both ends. -/
def pyStrip (l : List Nat) : List Nat :=
  ((l.dropWhile pySpace).reverse.dropWhile pySpace).reverse

/-- `user_name` (identical in both transport classes): keep the printable
ASCII bytes (`ord(' ') <= b < 128`) and strip the result. -/
def userName (bs : List Nat) : List Nat :=
  pyStrip (bs.filter (fun b => 32 ≤ b && b < 128))

/-- The patient id `Microlife_BTLE.get_id` stores: `user_name` applied to
`result[2:MAX_ID_LENGTH+2]` when `result[1] == 1`, otherwise to
`result[23:MAX_ID_LENGTH+23]`. -/
def btlePatientId (result : List Nat) : List Nat :=
  if result.getD 1 0 = 1 then userName ((result.drop 2).take MAX_ID_LENGTH)
  else userName ((result.drop 23).take MAX_ID_LENGTH)

/-! ## USB patient id (src/bpm_usb.py) -/

/-- `Microlife_USB.ID_LENGTH`. -/
def ID_LENGTH : Nat := 11

/-- Whether `chr(ch).isalnum()` holds for an ASCII code in `[32, 126]`. -/
def isAlnum (c : Nat) : Bool :=
  (48 ≤ c && c ≤ 57) || (65 ≤ c && c ≤ 90) || (97 ≤ c && c ≤ 122)

/-- `Microlife_USB.get_id`: decode hex-digit pairs into characters, stopping
at the first pair that is not a printable alphanumeric character; via the
`try/finally: return id` a hex-decoding error also just ends the loop and
returns the id built so far. -/
def usbGetId : List Nat → List Nat
  | [] => []
  | [a] =>
    match decodeHexnum [a] with
    | .error _ => []
    | .ok ch => if ch < 32 || 126 < ch || !isAlnum ch then [] else [ch]
  | a :: b :: rest =>
    match decodeHexnum [a, b] with
    | .error _ => []
    | .ok ch => if ch < 32 || 126 < ch || !isAlnum ch then [] else ch :: usbGetId rest

/-- `Microlife_USB.get_patient_id`: decode `response[0:2*ID_LENGTH]`. -/
def usbPatientId (response : List Nat) : List Nat :=
  usbGetId (response.take (2 * ID_LENGTH))

/-- The 32-byte argument `Microlife_USB.set_id` sends: zeros with
`arg[1] = arg[3] = 1` and the (truncated) id's character codes at
positions 4... -/
def usbSetIdArg (id : List Nat) : List Nat :=
  let id' := if id.length > ID_LENGTH then id.take ID_LENGTH else id
  overlay ([0, 1, 0, 1] ++ List.replicate 28 0) 4 id'

/-! ## USB measurement decoding (`Microlife_USB.get_data`)

The date prefix of a record is parsed with
`datetime.datetime.strptime(record[0:10].decode(), '%y%m%d%H%M')`.
`parseYmdHM` models CPython's `_strptime`: the format is compiled to the
regex `(\d\d)(1[0-2]|0[1-9]|[1-9])(3[01]|[12]\d|0[1-9]|[1-9])`
`(2[0-3]|[0-1]\d|\d)([0-5]\d|\d)`, matched with ordered-alternation
backtracking; the first match found must consume the whole string
(otherwise `unconverted data remains`), and constructing the `datetime`
then validates the day against the month.  Any failure raises `ValueError`
(as does `UnicodeDecodeError` from `.decode()`, a `ValueError` subclass),
which `get_data` catches and turns into skipping the record. -/

def isDigit (c : Nat) : Bool := 48 ≤ c && c ≤ 57

/-- Regex alternatives for `%m` (`1[0-2]|0[1-9]|[1-9]`), in order. -/
def mCands : List Nat → List (Nat × List Nat)
  | c0 :: c1 :: rest =>
    (if c0 = 49 && 48 ≤ c1 && c1 ≤ 50 then [(10 + (c1 - 48), rest)] else []) ++
    (if c0 = 48 && 49 ≤ c1 && c1 ≤ 57 then [(c1 - 48, rest)] else []) ++
    (if 49 ≤ c0 && c0 ≤ 57 then [(c0 - 48, c1 :: rest)] else [])
  | [c0] => if 49 ≤ c0 && c0 ≤ 57 then [(c0 - 48, [])] else []
  | [] => []

/-- Regex alternatives for `%d` (`3[01]|[12]\d|0[1-9]|[1-9]`), in order. -/
def dCands : List Nat → List (Nat × List Nat)
  | c0 :: c1 :: rest =>
    (if c0 = 51 && 48 ≤ c1 && c1 ≤ 49 then [(30 + (c1 - 48), rest)] else []) ++
    (if (c0 = 49 || c0 = 50) && isDigit c1 then [(10 * (c0 - 48) + (c1 - 48), rest)] else []) ++
    (if c0 = 48 && 49 ≤ c1 && c1 ≤ 57 then [(c1 - 48, rest)] else []) ++
    (if 49 ≤ c0 && c0 ≤ 57 then [(c0 - 48, c1 :: rest)] else [])
  | [c0] => if 49 ≤ c0 && c0 ≤ 57 then [(c0 - 48, [])] else []
  | [] => []

/-- Regex alternatives for `%H` (`2[0-3]|[0-1]\d|\d`), in order. -/
def hCands : List Nat → List (Nat × List Nat)
  | c0 :: c1 :: rest =>
    (if c0 = 50 && 48 ≤ c1 && c1 ≤ 51 then [(20 + (c1 - 48), rest)] else []) ++
    (if (c0 = 48 || c0 = 49) && isDigit c1 then [(10 * (c0 - 48) + (c1 - 48), rest)] else []) ++
    (if isDigit c0 then [(c0 - 48, c1 :: rest)] else [])
  | [c0] => if isDigit c0 then [(c0 - 48, [])] else []
  | [] => []

/-- Regex alternatives for `%M` (`[0-5]\d|\d`), in order. -/
def minCands : List Nat → List (Nat × List Nat)
  | c0 :: c1 :: rest =>
    (if 48 ≤ c0 && c0 ≤ 53 && isDigit c1 then [(10 * (c0 - 48) + (c1 - 48), rest)] else []) ++
    (if isDigit c0 then [(c0 - 48, c1 :: rest)] else [])
  | [c0] => if isDigit c0 then [(c0 - 48, [])] else []
  | [] => []

/-- First regex match of `%y%m%d%H%M` under ordered-alternation
backtracking, then the `unconverted data remains` check. -/
def parseYmdHM (s : List Nat) : Option (Nat × Nat × Nat × Nat × Nat) :=
  match s with
  | c0 :: c1 :: rest =>
    if isDigit c0 && isDigit c1 then
      let y := 10 * (c0 - 48) + (c1 - 48)
      match
        (mCands rest).findSome? fun mc =>
          (dCands mc.2).findSome? fun dc =>
            (hCands dc.2).findSome? fun hc =>
              (minCands hc.2).findSome? fun nc => some (mc.1, dc.1, hc.1, nc.1, nc.2)
      with
      | some (m, d, h, mi, []) => some (y, m, d, h, mi)
      | _ => none
    else none
  | _ => none

/-- The `%y` pivot of `_strptime`: years 00-68 are 20xx, 69-99 are 19xx. -/
def yearOf (y : Nat) : Nat := if y ≤ 68 then 2000 + y else 1900 + y

def isLeap (yr : Nat) : Bool := yr % 4 = 0 && (yr % 100 ≠ 0 || yr % 400 = 0)

def daysInMonth (yr m : Nat) : Nat :=
  if m = 2 then (if isLeap yr then 29 else 28)
  else if m = 4 || m = 6 || m = 9 || m = 11 then 30
  else 31

/-- Parsed timestamp of a record: `strptime(record[0:10].decode(),
'%y%m%d%H%M')`, `none` when a `ValueError` (including the decode error for
non-ASCII bytes) is raised. -/
def parseDateBytes (r : List Nat) : Option (Nat × Nat × Nat × Nat × Nat) :=
  let bs := r.take 10
  if bs.any (fun b => 128 ≤ b) then none
  else
    match parseYmdHM bs with
    | none => none
    | some (y, m, d, h, mi) =>
      if d ≤ daysInMonth (yearOf y) m then some (yearOf y, m, d, h, mi) else none

/-- One decoded measurement: timestamp plus the three 10-bit vital signs. -/
structure Meas where
  year : Nat
  month : Nat
  day : Nat
  hour : Nat
  minute : Nat
  sys : Nat
  dia : Nat
  pulse : Nat
deriving DecidableEq

/-- The bit-unpacking `get_data` applies to the 32-bit word of a record. -/
def decodePacked (word : Nat) : Nat × Nat × Nat :=
  (word &&& 1023, (word >>> 10) &&& 1023, (word >>> 20) &&& 1023)

/-- The encoding named by the spec's round-trip property:
`sys | (dia << 10) | (pulse << 20)`. -/
def encodePacked (sys dia pulse : Nat) : Nat :=
  sys ||| (dia <<< 10) ||| (pulse <<< 20)

/-- The loop body of `get_data` for one 32-byte record: a record whose date
fails to parse is skipped (`continue`); otherwise the hex word at bytes
16..23 is decoded (an invalid hex digit raises, uncaught) and the
measurement is appended. -/
def processRecord (acc : List Meas) (r : List Nat) : Except Unit (List Meas) :=
  match parseDateBytes r with
  | none => .ok acc
  | some (yr, mo, d, h, mi) =>
    match decodeHexnum ((r.drop 16).take 8) with
    | .error e => .error e
    | .ok word =>
      .ok (acc ++ [⟨yr, mo, d, h, mi, word &&& 1023, (word >>> 10) &&& 1023,
                    (word >>> 20) &&& 1023⟩])

/-- The record loop of `get_data`. -/
def getDataLoop (acc : List Meas) : List (List Nat) → Except Unit (List Meas)
  | [] => .ok acc
  | r :: rs =>
    match processRecord acc r with
    | .error e => .error e
    | .ok acc' => getDataLoop acc' rs

/-- `Microlife_USB.get_data` on the CYCLES response: the cycle count is the
4-hex-digit prefix, records are the 32-byte slices starting at offset 32,
and the loop decodes them in order. -/
def getData (response : List Nat) : Except Unit (List Meas) :=
  match decodeHexnum (response.take 4) with
  | .error e => .error e
  | .ok cycles =>
    getDataLoop [] ((List.range cycles).map fun k => (response.drop (32 + 32 * k)).take 32)

/-! ## Discovery coordinator (src/bpm_bt.py, `Discovery.isbpm`)

`Discovery.run` launches one `isbpm` coroutine per candidate on a single
asyncio event loop.  Cooperative scheduling means a coroutine runs
atomically between `await` suspension points; the suspension points of
`isbpm` are the `BleakClient` connect, `get_services`, and `run_client`.
The atomic blocks are modelled by the program counter below:

* `start → connected`: the flag check before `async with BleakClient`,
  then the connect await;
* `connected → gotServices`: the flag check after connecting, then the
  `get_services` await;
* `gotServices`: the match test on the enumerated services, and — with no
  intervening suspension point — the check-then-set of `found_device`.
  A matching task that finds the flag unset sets it and proceeds to
  `run_client` (state `running`, `won := true`); a matching task that
  finds it set, or a non-matching task, finishes without issuing any
  command;
* `running → done`: `run_client` (the command exchange) completes.

`mtch i = true` means candidate `i`'s probe reaches the service test and
passes it (service UUID plus notify and write characteristics present).  A
schedule is an arbitrary list of task indices; each entry runs the next
atomic block of that task (a no-op for a finished task), so all
interleavings of the cooperative scheduler are covered. -/

inductive PC
  | start
  | connected
  | gotServices
  | running
  | done
deriving DecidableEq

structure DTask where
  pc : PC
  won : Bool
deriving DecidableEq

structure DState (n : Nat) where
  flag : Option (Fin n)
  tasks : Fin n → DTask

/-- Run the next atomic block of task `i` (see the section comment). -/
def stepTask {n : Nat} (mtch : Fin n → Bool) (s : DState n) (i : Fin n) : DState n :=
  match (s.tasks i).pc with
  | .start =>
    if s.flag.isSome then { s with tasks := Function.update s.tasks i ⟨.done, (s.tasks i).won⟩ }
    else { s with tasks := Function.update s.tasks i ⟨.connected, (s.tasks i).won⟩ }
  | .connected =>
    if s.flag.isSome then { s with tasks := Function.update s.tasks i ⟨.done, (s.tasks i).won⟩ }
    else { s with tasks := Function.update s.tasks i ⟨.gotServices, (s.tasks i).won⟩ }
  | .gotServices =>
    if mtch i then
      if s.flag.isSome then
        { s with tasks := Function.update s.tasks i ⟨.done, (s.tasks i).won⟩ }
      else { flag := some i, tasks := Function.update s.tasks i ⟨.running, true⟩ }
    else { s with tasks := Function.update s.tasks i ⟨.done, (s.tasks i).won⟩ }
  | .running => { s with tasks := Function.update s.tasks i ⟨.done, (s.tasks i).won⟩ }
  | .done => s

/-- Execute a schedule, one atomic block per entry. -/
def runSched {n : Nat} (mtch : Fin n → Bool) (s : DState n) (sched : List (Fin n)) :
    DState n :=
  sched.foldl (stepTask mtch) s

/-- All coroutines freshly created, `found_device = None`. -/
def initDiscovery (n : Nat) : DState n := ⟨none, fun _ => ⟨.start, false⟩⟩

/-- Inductive invariant of the discovery race: a task that entered command
exchange is a matching task and owns the flag; a set flag points at such a
task; a matching task can only have finished after the flag was set; and a
task in command exchange has `won` set. -/
def DiscInv {n : Nat} (mtch : Fin n → Bool) (s : DState n) : Prop :=
  (∀ i, (s.tasks i).won = true → mtch i = true ∧ s.flag = some i) ∧
  (∀ i, s.flag = some i → (s.tasks i).won = true) ∧
  (∀ i, mtch i = true → (s.tasks i).pc = .done → s.flag.isSome) ∧
  (∀ i, (s.tasks i).pc = .running → (s.tasks i).won = true)

/-! ## Helper lemmas -/

theorem lor_shiftRight (a b n : Nat) : (a ||| b) >>> n = a >>> n ||| b >>> n := by
  apply Nat.eq_of_testBit_eq
  intro i
  simp [Nat.testBit_shiftRight, Nat.testBit_or]

theorem chunk7_all_le7 (l : List Nat) : (chunk7 l).all usbLenAssert = true := by
  rw [chunk7]
  split
  · rfl
  · rename_i h
    rw [List.all_cons]
    refine Bool.and_eq_true_iff.mpr ⟨?_, chunk7_all_le7 (l.drop 7)⟩
    simp [usbLenAssert, List.length_take]
termination_by l.length
decreasing_by
  simp only [List.length_drop]
  have hne : l ≠ [] := by assumption
  have := List.length_pos.mpr hne
  omega

/-! ## C7: bit-packing round trip -/

/-- C7: for all `sys`, `dia`, `pulse` each in `[0, 1023]`, decoding the
32-bit word `sys ||| (dia <<< 10) ||| (pulse <<< 20)` with the USB
measurement decoder of `Microlife_USB.get_data` (`word & 1023`,
`(word >> 10) & 1023`, `(word >> 20) & 1023`) recovers exactly the triple
`(sys, dia, pulse)`. -/
theorem c7_bit_packing_roundtrip (sys dia pulse : Nat)
    (hs : sys ≤ 1023) (hd : dia ≤ 1023) (hp : pulse ≤ 1023) :
    decodePacked (encodePacked sys dia pulse) = (sys, dia, pulse) := by
  have p10 : (2 : Nat) ^ 10 = 1024 := by norm_num
  have hs' : sys < 2 ^ 10 := by omega
  have hd' : dia < 2 ^ 10 := by omega
  have hp' : pulse < 2 ^ 10 := by omega
  have hmask : (1023 : Nat) = 2 ^ 10 - 1 := by norm_num
  have hmod10 : ∀ x : Nat, x * 2 ^ 10 % 2 ^ 10 = 0 := fun x => Nat.mul_mod_left _ _
  have hmod20 : ∀ x : Nat, x * 2 ^ 20 % 2 ^ 10 = 0 := by
    intro x
    have h20 : (2 : Nat) ^ 20 = 2 ^ 10 * 2 ^ 10 := by norm_num
    rw [h20, ← Nat.mul_assoc]
    exact Nat.mul_mod_left _ _
  have e1 : (sys ||| dia <<< 10 ||| pulse <<< 20) &&& 1023 = sys := by
    rw [hmask, Nat.and_distrib_right, Nat.and_distrib_right,
      Nat.and_pow_two_sub_one_of_lt_two_pow hs',
      Nat.and_pow_two_sub_one_eq_mod, Nat.and_pow_two_sub_one_eq_mod,
      Nat.shiftLeft_eq, Nat.shiftLeft_eq, hmod10, hmod20, Nat.or_zero, Nat.or_zero]
  have e2 : ((sys ||| dia <<< 10 ||| pulse <<< 20) >>> 10) &&& 1023 = dia := by
    rw [lor_shiftRight, lor_shiftRight]
    have g1 : sys >>> 10 = 0 := by
      rw [Nat.shiftRight_eq_div_pow]
      exact Nat.div_eq_of_lt hs'
    have g2 : dia <<< 10 >>> 10 = dia := Nat.shiftLeft_shiftRight _ _
    have g3 : pulse <<< 20 >>> 10 = pulse * 2 ^ 10 := by
      rw [Nat.shiftLeft_eq, Nat.shiftRight_eq_div_pow]
      have h20 : (2 : Nat) ^ 20 = 2 ^ 10 * 2 ^ 10 := by norm_num
      rw [h20, ← Nat.mul_assoc]
      exact Nat.mul_div_cancel _ (by positivity)
    rw [g1, g2, g3, Nat.zero_or, hmask, Nat.and_distrib_right,
      Nat.and_pow_two_sub_one_of_lt_two_pow hd',
      Nat.and_pow_two_sub_one_eq_mod, hmod10, Nat.or_zero]
  have e3 : ((sys ||| dia <<< 10 ||| pulse <<< 20) >>> 20) &&& 1023 = pulse := by
    rw [lor_shiftRight, lor_shiftRight]
    have g1 : sys >>> 20 = 0 := by
      rw [Nat.shiftRight_eq_div_pow]
      refine Nat.div_eq_of_lt ?_
      have p20 : (2 : Nat) ^ 20 = 1048576 := by norm_num
      omega
    have g2 : dia <<< 10 >>> 20 = 0 := by
      rw [Nat.shiftLeft_eq, Nat.shiftRight_eq_div_pow]
      have h20 : (2 : Nat) ^ 20 = 2 ^ 10 * 2 ^ 10 := by norm_num
      rw [h20, ← Nat.div_div_eq_div_mul, Nat.mul_div_cancel _ (by positivity),
        Nat.div_eq_of_lt hd']
    have g3 : pulse <<< 20 >>> 20 = pulse := Nat.shiftLeft_shiftRight _ _
    rw [g1, g2, g3, Nat.zero_or, Nat.zero_or, hmask,
      Nat.and_pow_two_sub_one_of_lt_two_pow hp']
  simp only [decodePacked, encodePacked]
  rw [e1, e2, e3]

/-- Witness for C7 at the spec's example measurement `(120, 80, 65)`. -/
theorem c7_witness : decodePacked (encodePacked 120 80 65) = (120, 80, 65) :=
  c7_bit_packing_roundtrip 120 80 65 (by decide) (by decide) (by decide)

/-! ## C3 and C4: wireless response reassembly -/

/-- C3: whenever `characteristic_notification` completes reassembly
(delivers a result), the accumulated byte count equals the declared length
`bytes[2]*256 + bytes[3] + 4` exactly, the first two bytes are the magic
tag `M:`, the last byte is the mod-256 sum of all preceding bytes, the
delivered payload is `bytes[4:-1]`, and the buffer is reset; when it
returns without completing, the accumulated count is still strictly below
the declared length (reassembly never runs strictly past it without a
failed assertion). -/
theorem c3_reassembly_invariant (st v st' : List Nat) (opt : Option (List Nat))
    (h : charNotif st v = .ok (st', opt)) :
    (∀ res, opt = some res →
      (st ++ v).length = (st ++ v).getD 2 0 * 256 + (st ++ v).getD 3 0 + 4 ∧
      (st ++ v).take 2 = [77, 58] ∧
      (st ++ v).getD ((st ++ v).length - 1) 0 = (st ++ v).dropLast.sum % 256 ∧
      res = ((st ++ v).drop 4).dropLast ∧ st' = []) ∧
    (opt = none →
      (st ++ v).length < (st ++ v).getD 2 0 * 256 + (st ++ v).getD 3 0 + 4 ∧
      st' = st ++ v) := by
  simp only [charNotif] at h
  split at h
  · exact absurd h (by simp)
  · split at h
    · exact absurd h (by simp)
    · split at h
      · split at h
        · exact absurd h (by simp)
        · split at h
          · exact absurd h (by simp)
          · rename_i htag hlen hge hexact hck
            obtain ⟨hst, hopt⟩ := by simpa using h
            constructor
            · intro res hres
              rw [← hopt] at hres
              obtain rfl := by simpa using hres
              refine ⟨by omega, by simpa using htag, by omega, rfl, hst⟩
            · intro hnone
              rw [← hopt] at hnone
              simp at hnone
      · rename_i htag hlen hlt
        obtain ⟨hst, hopt⟩ := by simpa using h
        constructor
        · intro res hres
          rw [← hopt] at hres
          simp at hres
        · intro _
          exact ⟨by omega, hst.symm⟩

/-- Witness for C3: the correctly framed ACK response completes and
satisfies all the stated equations. -/
theorem c3_witness :
    charNotif [] [77, 58, 0, 2, 129, 10] = .ok ([], some [129]) ∧
    ([129] : List Nat) = (([77, 58, 0, 2, 129, 10] : List Nat).drop 4).dropLast :=
  ⟨by rfl,
    (((c3_reassembly_invariant [] [77, 58, 0, 2, 129, 10] [] (some [129])
      (by rfl)).1) [129] rfl).2.2.2.1⟩

/-- C4 counterexample: feeding the claim's bytes
`M: 0x00 0x05 0x81 0x86` to the notification handler does not complete
reassembly at all — the length field 5 declares a total of 9 bytes, so
after these 6 bytes the handler just keeps buffering and never delivers the
payload `[0x81]`. -/
theorem c4_counterexample :
    charNotif [] [77, 58, 0, 5, 129, 134] = .ok ([77, 58, 0, 5, 129, 134], none) ∧
    ∀ st' : List Nat, charNotif [] [77, 58, 0, 5, 129, 134] ≠ .ok (st', some btleAckSentinel) := by
  have h0 : charNotif [] [77, 58, 0, 5, 129, 134] = .ok ([77, 58, 0, 5, 129, 134], none) := by rfl
  refine ⟨h0, fun st' h => ?_⟩
  rw [h0] at h
  simp [btleAckSentinel] at h

/-- C4 (amended): the correctly framed wireless ACK response
`b'M:' + bytes([0, 2]) + b'\x81' + bytes([0x0A])` (declared total
`0*256 + 2 + 4 = 6`) completes reassembly and decodes to the payload
`[0x81]`, which is exactly the ACK sentinel `bytearray([129])` that
`set_id` and `set_date_and_time` assert against. -/
theorem c4_amended :
    charNotif [] [77, 58, 0, 2, 129, 10] = .ok ([], some btleAckSentinel) := by rfl

/-! ## C10: USB set-type command path -/

/-- C10: for a set-type command (`arg` not `None`), once the single-byte
ACK `[6]` is read, `send_command` writes the hex-ASCII-encoded argument
plus checksum in chunks of at most 7 bytes and returns the next read
verbatim — whatever it contains — with no further checksum, length or
status check and no retry at that stage (one single loop iteration). -/
theorem c10_set_command_verbatim (cmd : Nat) (a : List Nat) (reads : Nat → List Nat)
    (h : reads 0 = [6]) :
    sendCommand cmd (some a) reads =
      ⟨[usbCmdBytes cmd] ++ chunk7 (usbSetFrame a), 1, .payload (reads 1)⟩ := by
  show sendLoop (usbCmdBytes cmd) (some a) reads (14 + 1) 0 [] 0 = _
  simp [sendLoop, h]

/-- Witness for C10: a concrete oracle whose post-ACK read is the
unvalidated `[7, 8, 9]`; it is returned verbatim after one attempt. -/
theorem c10_witness :
    sendCommand 35 (some [0, 1, 0, 1]) (fun n => if n = 0 then [6] else [7, 8, 9]) =
      ⟨[usbCmdBytes 35] ++ chunk7 (usbSetFrame [0, 1, 0, 1]), 1, .payload [7, 8, 9]⟩ :=
  c10_set_command_verbatim 35 [0, 1, 0, 1] _ rfl

/-! ## C6: USB write byte-count assertion -/

/-- C6 counterexample: on the win32 branch `USB_IO.write` asserts the
returned byte count equals the constant 9, not the built frame's size
(`len(data) + 2`).  For the 4-byte command frame `[0x12, 0x16, 0x18, 0x22]`
the frame is 6 bytes, so an assertion compared against the actual frame
size fails. -/
theorem c6_counterexample :
    usbWriteRetAssert .win32 (usbCmdBytes 34) (usbFrame .win32 (usbCmdBytes 34)).length
      = false := by rfl

/-- C6 (amended): on the non-win32 branch the assertion checks the returned
count against the frame size (length prefix plus data) and holds for every
chunk; on win32 the assertion checks the returned count against the
constant 9 — the full padded report — which coincides with the built
frame's size exactly when the chunk carries 7 data bytes; and every chunk
the engine hands to `USB_IO.write` (the 4-byte command and the `arg[:7]`
slices) satisfies the `len(data) <= 7` entry assertion. -/
theorem c6_amended_write_assertion :
    (∀ data : List Nat, usbWriteRetAssert .other data (usbFrame .other data).length = true) ∧
    (∀ data : List Nat, usbWriteRetAssert .win32 data 9 = true) ∧
    (∀ data : List Nat,
      (usbWriteRetAssert .win32 data (usbFrame .win32 data).length = true ↔ data.length = 7)) ∧
    (∀ cmd : Nat, usbLenAssert (usbCmdBytes cmd) = true) ∧
    (∀ l : List Nat, (chunk7 l).all usbLenAssert = true) := by
  refine ⟨?_, ?_, ?_, ?_, ?_⟩
  · intro data
    simp [usbWriteRetAssert, usbFrame]
  · intro data
    simp [usbWriteRetAssert]
  · intro data
    simp only [usbWriteRetAssert, usbFrame, List.length_cons, beq_iff_eq]
    omega
  · intro cmd
    rfl
  · intro l
    exact chunk7_all_le7 l

/-! ## C2 and C5: USB get-type response validation and retry policy

Both claims founder on the same slip in the source: on a checksum mismatch
`send_command` executes
`self.prnt('checksum mismatch: ...', file=sys.stderr)`, but `self.prnt` is
always a one-argument callable (`lambda s: print(s)` in CLI mode,
`BPWindow.show_message` in GUI mode), so the call raises `TypeError` and
the loop aborts on the first mismatch instead of retrying — contradicting
the source's own comment `MAX_RETRY = 15  # for garbage input or checksum
mismatches`. -/

/-- C2 (code-bug evaluation): with a transport that always answers the
checksum-mismatching `[0x06, 0x41, 0x30, 0x30]` (status ACK, payload `A`,
trailing characters `00` instead of the computed `41`), `send_command`
raises `TypeError` on the very first attempt instead of performing 15
attempts; the claimed 15-attempt bound does hold when every response fails
the length/status screen (e.g. an always-empty read). -/
theorem c2_retry_bound_behaviour :
    (sendCommand 34 none (fun _ => [6, 65, 48, 48])).outcome = .typeError ∧
    (sendCommand 34 none (fun _ => [6, 65, 48, 48])).attempts = 1 ∧
    (sendCommand 34 none (fun _ => [])).outcome = .exhausted ∧
    (sendCommand 34 none (fun _ => [])).attempts = 15 ∧
    (sendCommand 34 none (fun _ => [])).writes = List.replicate 15 (usbCmdBytes 34) := by
  refine ⟨by rfl, by rfl, by rfl, by rfl, by rfl⟩

/-- C5: a get-type response is accepted — and `response[1:-2]` returned —
exactly when it is longer than 3 bytes, starts with the ACK status 6, and
its trailing two bytes are the two uppercase-hex ASCII characters of
`sum(response[1:-2]) % 256`; but the `otherwise` half of the claim fails:
a response meeting the length/status screen whose checksum characters
mismatch is not discarded-and-retried, it raises `TypeError` (see the
section comment), as evaluated on `[0x06, 0x42, 0x30, 0x30]`. -/
theorem c5_get_response_validation :
    (∀ resp p, usbCheckResponse resp = .accept p ↔
      (3 < resp.length ∧ resp.getD 0 0 = 6 ∧
        resp.drop (resp.length - 2) =
          [hexUpper (usbChecksum resp / 16), hexUpper (usbChecksum resp % 16)] ∧
        p = usbPayload resp)) ∧
    usbCheckResponse [6, 66, 48, 48] = .typeError ∧
    (sendCommand 36 none (fun _ => [6, 66, 48, 48])).outcome = .typeError ∧
    (sendCommand 36 none (fun _ => [6, 66, 48, 48])).attempts = 1 := by
  refine ⟨?_, by rfl, by rfl, by rfl⟩
  intro resp p
  have hupper : ∀ d : Nat, d ≤ 15 → hexUpper d < 128 := by
    intro d hd
    simp only [hexUpper]
    split <;> omega
  have hck : usbChecksum resp ≤ 255 := by
    have := Nat.mod_lt ((resp.drop 1).take (resp.length - 3)).sum (show 0 < 256 by omega)
    simp only [usbChecksum]
    omega
  have h1 : hexUpper (usbChecksum resp / 16) < 128 := hupper _ (by omega)
  have h2 : hexUpper (usbChecksum resp % 16) < 128 := hupper _ (by omega)
  constructor
  · intro hacc
    simp only [usbCheckResponse] at hacc
    split at hacc
    · exact absurd hacc (by simp)
    · rename_i hscreen
      push_neg at hscreen
      obtain ⟨hlen, hstatus⟩ := hscreen
      have htl : (resp.drop (resp.length - 2)).length = 2 := by
        simp [List.length_drop]
        omega
      obtain ⟨a, b, hab⟩ := List.length_eq_two.mp htl
      rw [hab] at hacc
      refine ⟨by omega, hstatus, ?_⟩
      simp only [pyDecode2] at hacc
      split at hacc
      · exact absurd hacc (by simp)
      · rename_i s hsome
        split at hacc
        · rename_i hpair
          simp only [USBStep.accept.injEq] at hacc
          subst hpair
          split at hsome
          · rw [hab]
            exact ⟨by simpa using hsome, hacc.symm⟩
          · split at hsome
            · simp at hsome
            · exact absurd hsome (by simp)
        · exact absurd hacc (by simp)
  · rintro ⟨hlen, hstatus, htail, hp⟩
    simp only [usbCheckResponse]
    rw [if_neg (by omega), htail]
    simp only [pyDecode2]
    rw [if_pos ⟨h1, h2⟩]
    simp [hp]

/-! ## C8: records with unparseable dates are skipped -/

/-- C8: in the record loop of `get_data`, a record whose first 10 decoded
characters do not parse as a valid `YYMMDDHHMM` date is skipped: no error
is raised for it, nothing is appended for it, and the loop continues with
the remaining records, so the skipped record contributes nothing to the
output sequence. -/
theorem c8_malformed_date_skipped (acc : List Meas) (pre post : List (List Nat))
    (r : List Nat) (h : parseDateBytes r = none) :
    getDataLoop acc (pre ++ r :: post) = getDataLoop acc (pre ++ post) := by
  induction pre generalizing acc with
  | nil =>
    simp only [List.nil_append, getDataLoop, processRecord, h]
  | cons q qs ih =>
    simp only [List.cons_append, getDataLoop]
    cases hq : processRecord acc q with
    | error e => rfl
    | ok acc' => exact ih acc'

/-- Witness for C8: an all-zeros record (date characters `0000000000`, an
invalid month) is skipped while the following valid record
(`2301011230...`) is still decoded. -/
theorem c8_witness :
    parseDateBytes (List.replicate 32 48) = none ∧
    getDataLoop [] [List.replicate 32 48,
        [50, 51, 48, 49, 48, 49, 49, 50, 51, 48] ++ List.replicate 22 48] =
      getDataLoop [] [[50, 51, 48, 49, 48, 49, 49, 50, 51, 48] ++ List.replicate 22 48] :=
  ⟨by decide,
    c8_malformed_date_skipped [] []
      [[50, 51, 48, 49, 48, 49, 49, 50, 51, 48] ++ List.replicate 22 48]
      (List.replicate 32 48) (by decide)⟩

/-! ## C9: patient-identifier shape -/

theorem dropWhile_eq_self_of_initial {p : Nat → Bool} {l l1 : List Nat}
    (hl : l.dropWhile p = l) (hpre : l1 <+: l) : l1.dropWhile p = l1 := by
  cases l1 with
  | nil => rfl
  | cons a t =>
    obtain ⟨k, hk⟩ := hpre
    by_cases hpa : p a
    · exfalso
      rw [← hk, List.cons_append, List.dropWhile_cons, if_pos hpa] at hl
      have hsub := (List.dropWhile_sublist (l := t ++ k) (p := p)).length_le
      have hlen2 := congrArg List.length hl
      simp only [List.length_cons, List.length_append] at hlen2 hsub
      omega
    · simp [List.dropWhile_cons, hpa]

theorem pyStrip_eq (l : List Nat) :
    pyStrip l = List.rdropWhile pySpace (l.dropWhile pySpace) := rfl

theorem pyStrip_idem (l : List Nat) : pyStrip (pyStrip l) = pyStrip l := by
  rw [pyStrip_eq, pyStrip_eq]
  have hA : (l.dropWhile pySpace).dropWhile pySpace = l.dropWhile pySpace :=
    List.dropWhile_idempotent _ _
  have hpre : List.rdropWhile pySpace (l.dropWhile pySpace) <+: l.dropWhile pySpace :=
    List.rdropWhile_prefix _ _
  rw [dropWhile_eq_self_of_initial hA hpre, List.rdropWhile_idempotent]

theorem pyStrip_length_le (l : List Nat) : (pyStrip l).length ≤ l.length := by
  rw [pyStrip_eq]
  have h1 := (List.rdropWhile_prefix pySpace (l.dropWhile pySpace)).sublist.length_le
  have h2 := (List.dropWhile_sublist (l := l) (p := pySpace)).length_le
  omega

theorem mem_of_mem_pyStrip {c : Nat} {l : List Nat} (h : c ∈ pyStrip l) : c ∈ l := by
  rw [pyStrip_eq] at h
  exact (List.dropWhile_sublist _).mem ((List.rdropWhile_prefix _ _).sublist.mem h)

theorem pyStrip_eq_self_of_no_space {l : List Nat}
    (h : ∀ c ∈ l, pySpace c = false) : pyStrip l = l := by
  rw [pyStrip_eq]
  have h1 : l.dropWhile pySpace = l := by
    cases l with
    | nil => rfl
    | cons a t => simp [List.dropWhile_cons, h a (by simp)]
  rw [h1]
  apply List.rdropWhile_eq_self_iff.mpr
  intro hne
  simp [h _ (List.getLast_mem hne)]

theorem userName_length_le (bs : List Nat) : (userName bs).length ≤ bs.length :=
  le_trans (pyStrip_length_le _) (List.length_filter_le _ _)

theorem userName_printable (bs : List Nat) :
    ∀ c ∈ userName bs, 32 ≤ c ∧ c < 128 := by
  intro c hc
  have := mem_of_mem_pyStrip hc
  have hf := List.mem_filter.mp this
  have := hf.2
  simp at this
  omega

theorem usbGetId_length : ∀ data : List Nat, 2 * (usbGetId data).length ≤ data.length + 1
  | [] => by simp [usbGetId]
  | [a] => by
    simp only [usbGetId]
    cases hd : decodeHexnum [a] with
    | error e => simp [hd]
    | ok ch =>
      simp only [hd]
      split
      · simp
      · simp
  | a :: b :: rest => by
    simp only [usbGetId]
    cases hd : decodeHexnum [a, b] with
    | error e => simp [hd]
    | ok ch =>
      simp only [hd]
      split
      · simp
      · have := usbGetId_length rest
        simp only [List.length_cons]
        omega

theorem usbGetId_alnum : ∀ data : List Nat, ∀ c ∈ usbGetId data, isAlnum c = true
  | [] => by simp [usbGetId]
  | [a] => by
    simp only [usbGetId]
    cases hd : decodeHexnum [a] with
    | error e => simp [hd]
    | ok ch =>
      simp only [hd]
      split
      · simp
      · rename_i hcond
        intro c hc
        simp at hc
        subst hc
        simp only [Bool.or_eq_true, Bool.not_eq_true', not_or, decide_eq_true_eq] at hcond
        push_neg at hcond
        simpa using hcond.2
  | a :: b :: rest => by
    simp only [usbGetId]
    cases hd : decodeHexnum [a, b] with
    | error e => simp [hd]
    | ok ch =>
      simp only [hd]
      split
      · simp
      · rename_i hcond
        intro c hc
        rcases List.mem_cons.mp hc with hc | hc
        · subst hc
          simp only [Bool.or_eq_true, Bool.not_eq_true', not_or, decide_eq_true_eq] at hcond
          push_neg at hcond
          simpa using hcond.2
        · exact usbGetId_alnum rest c hc

theorem alnum_not_space {c : Nat} (h : isAlnum c = true) : pySpace c = false := by
  simp only [isAlnum] at h
  simp only [pySpace]
  simp only [Bool.or_eq_true, Bool.and_eq_true, decide_eq_true_eq] at h
  simp only [decide_eq_false_iff_not]
  omega

/-- C9: patient identifiers are short printable strings.  The decoders keep
only printable ASCII and trim: `user_name` output consists of printable
ASCII characters, is no longer than its input and is strip-stable, so the
wireless patient id (a `user_name` of a 20-byte slice) has at most 20
characters; `Microlife_USB.get_id` output consists of alphanumeric (hence
printable) characters and is strip-stable, so the USB patient id (decoded
from `response[0:22]`) has at most 11 characters; and both `set_id`
implementations truncate a longer caller-supplied identifier to their limit
(20 wireless, 11 USB) before encoding. -/
theorem c9_identifier_shape :
    (∀ bs : List Nat, (userName bs).length ≤ bs.length ∧
      (∀ c ∈ userName bs, 32 ≤ c ∧ c < 128) ∧
      pyStrip (userName bs) = userName bs) ∧
    (∀ result : List Nat, (btlePatientId result).length ≤ 20) ∧
    (∀ id : List Nat, btleSetIdCmd id = btleSetIdCmd (id.take 20)) ∧
    (∀ data : List Nat, 2 * (usbGetId data).length ≤ data.length + 1 ∧
      (∀ c ∈ usbGetId data, isAlnum c = true) ∧
      pyStrip (usbGetId data) = usbGetId data) ∧
    (∀ response : List Nat, (usbPatientId response).length ≤ 11) ∧
    (∀ id : List Nat, usbSetIdArg id = usbSetIdArg (id.take 11)) := by
  have htrunc : ∀ (k : Nat) (id : List Nat),
      (if (id.take k).length > k then (id.take k).take k else id.take k) =
      (if id.length > k then id.take k else id) := by
    intro k id
    have hlen : (id.take k).length ≤ k := List.length_take_le k id
    rw [if_neg (by omega)]
    rcases le_or_lt id.length k with hle | hlt
    · rw [if_neg (by omega), List.take_of_length_le hle]
    · rw [if_pos (by omega)]
  refine ⟨?_, ?_, ?_, ?_, ?_, ?_⟩
  · intro bs
    exact ⟨userName_length_le bs, userName_printable bs, pyStrip_idem _⟩
  · intro result
    unfold btlePatientId
    split
    · exact le_trans (userName_length_le _) (List.length_take_le _ _)
    · exact le_trans (userName_length_le _) (List.length_take_le _ _)
  · intro id
    unfold btleSetIdCmd
    rw [show MAX_ID_LENGTH = 20 from rfl, htrunc 20 id]
  · intro data
    refine ⟨usbGetId_length data, usbGetId_alnum data, ?_⟩
    exact pyStrip_eq_self_of_no_space fun c hc => alnum_not_space (usbGetId_alnum data c hc)
  · intro response
    unfold usbPatientId
    have := usbGetId_length (response.take (2 * ID_LENGTH))
    have hl : (response.take (2 * ID_LENGTH)).length ≤ 22 :=
      List.length_take_le _ _
    omega
  · intro id
    unfold usbSetIdArg
    rw [show ID_LENGTH = 11 from rfl, htrunc 11 id]

/-- Witness for C9: the bounded-membership conjuncts evaluated on the
concrete identifier bytes `' A '` (space, letter, space). -/
theorem c9_witness :
    userName [32, 65, 32] = [65] ∧ (32 ≤ 65 ∧ 65 < 128) ∧
    btleSetIdCmd [65, 66] = btleSetIdCmd (([65, 66] : List Nat).take 20) :=
  ⟨by decide, (c9_identifier_shape.1 [32, 65, 32]).2.1 65 (by decide),
    c9_identifier_shape.2.2.1 [65, 66]⟩

/-! ## C1: first-match-wins discovery -/

theorem discInv_init (n : Nat) (mtch : Fin n → Bool) : DiscInv mtch (initDiscovery n) := by
  refine ⟨fun i h => ?_, fun i h => ?_, fun i _ h => ?_, fun i h => ?_⟩
  · simp [initDiscovery] at h
  · simp [initDiscovery] at h
  · simp [initDiscovery] at h
  · simp [initDiscovery] at h

theorem discInv_pcOnly {n : Nat} (mtch : Fin n → Bool) (s : DState n) (i : Fin n)
    (newpc : PC) (hinv : DiscInv mtch s)
    (hnotrun : newpc = .running → False)
    (hdone : newpc = .done → mtch i = true → s.flag.isSome) :
    DiscInv mtch { s with tasks := Function.update s.tasks i ⟨newpc, (s.tasks i).won⟩ } := by
  obtain ⟨h1, h2, h3, h4⟩ := hinv
  refine ⟨fun j hj => ?_, fun j hj => ?_, fun j hm hj => ?_, fun j hj => ?_⟩
  · rcases eq_or_ne j i with rfl | hne
    · simpa using h1 j (by simpa [Function.update_apply] using hj)
    · exact h1 j (by simpa [Function.update_apply, hne] using hj)
  · rcases eq_or_ne j i with rfl | hne
    · simp only [Function.update_apply, if_pos rfl]
      exact h2 j hj
    · simpa [Function.update_apply, hne] using h2 j hj
  · rcases eq_or_ne j i with rfl | hne
    · simp only [Function.update_apply, if_pos rfl] at hj
      exact hdone hj hm
    · exact h3 j hm (by simpa [Function.update_apply, hne] using hj)
  · rcases eq_or_ne j i with rfl | hne
    · simp only [Function.update_apply, if_pos rfl] at hj ⊢
      exact absurd hj (by simpa using hnotrun)
    · simp only [Function.update_apply, if_neg hne] at hj ⊢
      exact h4 j hj

theorem discInv_step {n : Nat} (mtch : Fin n → Bool) (s : DState n) (i : Fin n)
    (h : DiscInv mtch s) : DiscInv mtch (stepTask mtch s i) := by
  have h1 := h.1
  have h2 := h.2.1
  have h3 := h.2.2.1
  have h4 := h.2.2.2
  unfold stepTask
  split
  · split
    · exact discInv_pcOnly mtch s i .done h (by simp) (fun _ _ => by assumption)
    · exact discInv_pcOnly mtch s i .connected h (by simp) (by simp)
  · split
    · exact discInv_pcOnly mtch s i .done h (by simp) (fun _ _ => by assumption)
    · exact discInv_pcOnly mtch s i .gotServices h (by simp) (by simp)
  · rename_i hpc
    split
    · rename_i hm
      split
      · exact discInv_pcOnly mtch s i .done h (by simp) (fun _ _ => by assumption)
      · rename_i hflag
        have hfnone : s.flag = none := Option.not_isSome_iff_eq_none.mp hflag
        refine ⟨fun j hj => ?_, fun j hj => ?_, fun j hm' hj => ?_, fun j hj => ?_⟩
        · rcases eq_or_ne j i with rfl | hne
          · exact ⟨hm, rfl⟩
          · exfalso
            have hw : (s.tasks j).won = true := by
              simpa [Function.update_apply, hne] using hj
            have := (h1 j hw).2
            rw [hfnone] at this
            exact Option.noConfusion this
        · simp only at hj
          rcases hj with hj
          injection hj with hj
          subst hj
          simp [Function.update_apply]
        · simp
        · rcases eq_or_ne j i with rfl | hne
          · simp [Function.update_apply]
          · simp only [Function.update_apply, if_neg hne] at hj ⊢
            exact h4 j hj
    · rename_i hm
      refine discInv_pcOnly mtch s i .done h (by simp) ?_
      intro _ hmi
      exact absurd hmi (by simpa using hm)
  · rename_i hpc
    refine discInv_pcOnly mtch s i .done h (by simp) ?_
    intro _ hmi
    have hw := h4 i hpc
    have := (h1 i hw).2
    simp [this]
  · exact h

theorem discInv_run {n : Nat} (mtch : Fin n → Bool) (s : DState n)
    (sched : List (Fin n)) (h : DiscInv mtch s) :
    DiscInv mtch (runSched mtch s sched) := by
  induction sched generalizing s with
  | nil => exact h
  | cons a rest ih => exact ih (stepTask mtch s a) (discInv_step mtch s a h)

/-- C1: in every discovery round — any number of candidates, any subset
satisfying the match predicate, any cooperative interleaving (`sched`) that
runs all probes to completion — if at least one candidate matches then
exactly one task wins: it matches, `found_device` reports exactly it, it
alone reached command exchange (`run_client`), and every other matching
candidate finished without entering command exchange (it observed the flag
already set at one of its checks, the only paths to `done` for a matching
task that does not win). -/
theorem c1_first_match_wins {n : Nat} (mtch : Fin n → Bool) (sched : List (Fin n))
    (hdone : ∀ i, ((runSched mtch (initDiscovery n) sched).tasks i).pc = .done)
    (hex : ∃ i, mtch i = true) :
    ∃ w, ((runSched mtch (initDiscovery n) sched).tasks w).won = true ∧
      (runSched mtch (initDiscovery n) sched).flag = some w ∧
      mtch w = true ∧
      ∀ j, ((runSched mtch (initDiscovery n) sched).tasks j).won = true → j = w := by
  have hinv := discInv_run mtch (initDiscovery n) sched (discInv_init n mtch)
  obtain ⟨h1, h2, h3, _⟩ := hinv
  obtain ⟨i, hi⟩ := hex
  have hsome := h3 i hi (hdone i)
  obtain ⟨w, hw⟩ := Option.isSome_iff_exists.mp hsome
  have hwon := h2 w hw
  refine ⟨w, hwon, hw, (h1 w hwon).1, fun j hj => ?_⟩
  have hfj := (h1 j hj).2
  rw [hw] at hfj
  injection hfj with hfj
  exact hfj.symm

/-- Witness for C1: two candidates that both match; the schedule lets task 0
run to completion first, task 1 then observes the flag at its first check
and finishes without winning. -/
theorem c1_witness :
    (∀ i : Fin 2, ((runSched (fun _ => true) (initDiscovery 2)
        [0, 0, 0, 0, 1]).tasks i).pc = .done) ∧
    (∃ w, ((runSched (fun _ => true) (initDiscovery 2) [0, 0, 0, 0, 1]).tasks w).won = true ∧
      (runSched (fun _ => true) (initDiscovery 2) [0, 0, 0, 0, 1]).flag = some w ∧
      (fun _ : Fin 2 => true) w = true ∧
      ∀ j, ((runSched (fun _ => true) (initDiscovery 2) [0, 0, 0, 0, 1]).tasks j).won = true
        → j = w) :=
  ⟨by decide, c1_first_match_wins (fun _ => true) [0, 0, 0, 0, 1] (by decide) ⟨0, rfl⟩⟩

end BPMonitor
